import Mathlib

/-!
Verification development for the FastSLAM 2D particle filter core
(`src/FastSLAM/particles.cpp` and `src/FastSLAM/particle-filter.cpp`).

Scalars are modelled as rationals.  The external collaborators (the robot
manager and the per-landmark EKF, which live outside the two source files)
are modelled as records of functions, so every theorem about the core is
quantified over their behaviour.  Randomness (pose sampling, uniform draws
during resampling) is modelled by explicit oracle parameters.
-/

namespace FastSLAM

/-- Planar pose `(x, y, θ)` with `θ` in radians, from `struct Pose2D`. -/
structure Pose2D where
  x : ℚ
  y : ℚ
  theta_rad : ℚ
  deriving DecidableEq

/-- Planar position `(x, y)`, from `struct Point2D`. -/
structure Point2D where
  x : ℚ
  y : ℚ
  deriving DecidableEq

/-- Landmark sighting in the robot frame, from `struct Observation2D`.
The core never inspects its fields; it only passes it to collaborators. -/
structure Observation2D where
  range_m : ℚ
  bearing_rad : ℚ
  deriving DecidableEq

/-- Row-major 2×2 rational matrix, standing in for `Eigen::Matrix2f`. -/
structure Mat2 where
  a : ℚ
  b : ℚ
  c : ℚ
  d : ℚ
  deriving DecidableEq

/-- Determinant of a 2×2 matrix (`Eigen .determinant()`). -/
def Mat2.det (m : Mat2) : ℚ := m.a * m.d - m.b * m.c

/-- The 2×2 identity matrix (`Eigen::Matrix2f::Identity()`). -/
def Mat2.identity : Mat2 := ⟨1, 0, 0, 1⟩

/-- Matrix product of 2×2 matrices. -/
def Mat2.mul (m n : Mat2) : Mat2 :=
  ⟨m.a * n.a + m.b * n.c, m.a * n.b + m.b * n.d,
   m.c * n.a + m.d * n.c, m.c * n.b + m.d * n.d⟩

/-- Transpose of a 2×2 matrix. -/
def Mat2.transpose (m : Mat2) : Mat2 := ⟨m.a, m.c, m.b, m.d⟩

/-- Inverse of a 2×2 matrix (`Eigen .inverse()`); the source only uses it
after checking that the determinant is nonzero. -/
def Mat2.inv (m : Mat2) : Mat2 :=
  ⟨m.d / m.det, -m.b / m.det, -m.c / m.det, m.a / m.det⟩

/-- Row-major 3×3 rational matrix, standing in for `Eigen::Matrix3f`. -/
structure Mat3 where
  a11 : ℚ
  a12 : ℚ
  a13 : ℚ
  a21 : ℚ
  a22 : ℚ
  a23 : ℚ
  a31 : ℚ
  a32 : ℚ
  a33 : ℚ
  deriving DecidableEq

/-- The 3×3 identity matrix. -/
def mat3Id : Mat3 := ⟨1, 0, 0, 0, 1, 0, 0, 0, 1⟩

/-- Return codes of the landmark EKF's Kalman update (`KF_RET`, declared in
the headers; the three outcomes are named by the spec and by the `switch` in
`updateLMBelief`). -/
inductive KF_RET where
  | SUCCESS
  | EMPTY_ROBOT_MANAGER
  | MATRIX_INVERSION_ERROR
  deriving DecidableEq

/-- Return codes of particle operations (`PF_RET`, declared in the headers). -/
inductive PF_RET where
  | SUCCESS
  | EMPTY_ROBOT_MANAGER
  | MATRIX_INVERSION_ERROR
  | UPDATE_ERROR
  deriving DecidableEq

/-- Modelled from the spec: the numeric enum values of `PF_RET` are fixed in a
header that is not under src/.  The code under src/ only compares the value of
`updateLMBelief` (added to a zero `res_code`) against `SUCCESS`, so only the
injectivity of the numbering matters; we number the constructors from 0. -/
def PF_RET.toInt : PF_RET → Int
  | .SUCCESS => 0
  | .EMPTY_ROBOT_MANAGER => 1
  | .MATRIX_INVERSION_ERROR => 2
  | .UPDATE_ERROR => 3

/-- Modelled from the spec: the sentinel weight is
`static_cast<float>(PF_RET::UPDATE_ERROR)` (particles.cpp line 129); the spec
only requires it to be a fixed numeric constant. -/
def UPDATE_ERROR_WEIGHT : ℚ := (PF_RET.toInt PF_RET.UPDATE_ERROR : ℚ)

/-- Interface of the robot manager (`RobotManager2D`), an external
collaborator referenced by the core only through these operations. -/
structure RobotManager2D where
  processNoise : Mat3
  measNoise : Mat2
  inverseMeas : Pose2D → Observation2D → Point2D
  measJacobian : Point2D → Mat2
  perceptualRange : ℚ

/-- Behaviour of the per-landmark EKF (`LMEKF2D`), an external collaborator.
`E` is the EKF's state type; the record gives the observable operations the
core calls.  `mkEKF` is the constructor `LMEKF2D(mean, cov, robot)`. -/
structure EKFModel (E : Type) where
  updateObservation : E → Observation2D → E
  update : E → KF_RET × E
  calcCPD : E → ℚ
  getLMEst : E → Point2D
  mkEKF : Point2D → Mat2 → Option RobotManager2D → E

/-- State of one particle (`FastSLAMParticles`).  The EKF bank pairs each
EKF state with its `int` existence counter. -/
structure Particle (E : Type) where
  m_importance_factor : ℚ
  m_robot_pose : Pose2D
  m_lmekf_bank : List (E × Int)
  m_data_label : Nat
  m_robot : Option RobotManager2D
  m_curr_max_wn : ℚ

/-- A default particle value, used only to totalise out-of-range vector
indexing that is undefined behaviour in the C++ source. -/
def nullParticle {E : Type} : Particle E :=
  { m_importance_factor := 0
    m_robot_pose := ⟨0, 0, 0⟩
    m_lmekf_bank := []
    m_data_label := 0
    m_robot := none
    m_curr_max_wn := 0 }

/-- Copy constructor `FastSLAMParticles(const FastSLAMParticles&)`
(particles.cpp lines 9–18): the member-initialiser list copies the scalar
members, and the body then iterates `m_lmekf_bank` — the destination's own
bank, which is empty at that point — so the loop body never runs and the
copy's bank is empty. -/
def copyParticle {E : Type} (p : Particle E) : Particle E :=
  { m_importance_factor := p.m_importance_factor
    m_robot_pose := p.m_robot_pose
    m_lmekf_bank := ([] : List (E × Int)).map (fun ec => ec)
    m_data_label := p.m_data_label
    m_robot := p.m_robot
    m_curr_max_wn := p.m_curr_max_wn }

/-- Loop body of `matchLandmark` (particles.cpp lines 26–35): walks the bank
in order, feeds the observation to each EKF, reads its correspondence
probability density, and keeps the running strict maximum together with the
index attaining it.  Returns the updated bank and the final
`(landmark_id, max_wn)`. -/
def matchLoop {E : Type} (model : EKFModel E) (curr_obs : Observation2D) :
    List (E × Int) → Nat → Nat → ℚ → List (E × Int) × Nat × ℚ
  | [], _, lid, mw => ([], lid, mw)
  | (e, c) :: rest, idx, lid, mw =>
    let e2 := model.updateObservation e curr_obs
    let w := model.calcCPD e2
    let next :=
      if w > mw then matchLoop model curr_obs rest (idx + 1) idx w
      else matchLoop model curr_obs rest (idx + 1) lid mw
    ((e2, c) :: next.1, next.2)

/-- Data association `FastSLAMParticles::matchLandmark` (particles.cpp lines
20–43): initialises `landmark_id` to the bank size and `max_wn` to the
importance factor `w₀`, scans the bank, then records the result into
`m_data_label` and `m_curr_max_wn` and returns the landmark id. -/
def matchLandmark {E : Type} (model : EKFModel E) (curr_obs : Observation2D)
    (p : Particle E) : Nat × Particle E :=
  let r := matchLoop model curr_obs p.m_lmekf_bank 0 p.m_lmekf_bank.length
    p.m_importance_factor
  (r.2.1,
    { p with
      m_lmekf_bank := r.1
      m_data_label := r.2.1
      m_curr_max_wn := r.2.2 })

/-- Belief update `FastSLAMParticles::updateLMBelief` (particles.cpp lines
45–94).  With no robot manager it fails.  When the data label equals the bank
size it inserts a fresh EKF: mean from `inverseMeas`, covariance the identity
when the measurement Jacobian is singular and `H⁻¹ R H⁻ᵀ` otherwise,
existence counter 1.  Otherwise it runs the labelled EKF's Kalman update and,
on success, increments that EKF's existence counter.  Indexing the bank out
of range is undefined behaviour in the source; the unreachable `none` branch
returns the particle unchanged. -/
def updateLMBelief {E : Type} (model : EKFModel E) (curr_obs : Observation2D)
    (p : Particle E) : PF_RET × Particle E :=
  match p.m_robot with
  | none => (PF_RET.EMPTY_ROBOT_MANAGER, p)
  | some rm =>
    if p.m_data_label = p.m_lmekf_bank.length then
      let proposed_mean := rm.inverseMeas p.m_robot_pose curr_obs
      let meas_jacobian := rm.measJacobian proposed_mean
      let proposed_cov :=
        if meas_jacobian.det = 0 then Mat2.identity
        else (meas_jacobian.inv.mul rm.measNoise).mul meas_jacobian.inv.transpose
      let new_lmekf := model.mkEKF proposed_mean proposed_cov p.m_robot
      (PF_RET.SUCCESS,
        { p with m_lmekf_bank := p.m_lmekf_bank ++ [(new_lmekf, 1)] })
    else
      match p.m_lmekf_bank[p.m_data_label]? with
      | none => (PF_RET.SUCCESS, p)
      | some (e, c) =>
        let e2 := model.updateObservation e curr_obs
        let r := model.update e2
        match r.1 with
        | KF_RET.EMPTY_ROBOT_MANAGER =>
          (PF_RET.EMPTY_ROBOT_MANAGER,
            { p with m_lmekf_bank := p.m_lmekf_bank.set p.m_data_label (r.2, c) })
        | KF_RET.MATRIX_INVERSION_ERROR =>
          (PF_RET.MATRIX_INVERSION_ERROR,
            { p with m_lmekf_bank := p.m_lmekf_bank.set p.m_data_label (r.2, c) })
        | KF_RET.SUCCESS =>
          (PF_RET.SUCCESS,
            { p with m_lmekf_bank := p.m_lmekf_bank.set p.m_data_label (r.2, c + 1) })

/-- Modelled from the spec: `MathUtil::findDist` (MathUtil is not under src/)
is the Euclidean distance from a point to the position of a pose.  The source
compares `findDist(est, pose) <= range`; we express that comparison on
squared quantities, which is equivalent for the nonnegative ranges the robot
manager contract guarantees. -/
def findDistSq (pt : Point2D) (pose : Pose2D) : ℚ :=
  (pt.x - pose.x) * (pt.x - pose.x) + (pt.y - pose.y) * (pt.y - pose.y)

/-- Loop body of `cleanUpSightings` (particles.cpp lines 98–109).  The source
increments the skip index `i` only inside the `i == m_data_label` branch; in
the other branch `i` is left unchanged.  Every EKF reached with `i` different
from the data label has its counter decremented (with no floor and no
pruning) whenever its mean is within perceptual range of the pose. -/
def cleanLoop {E : Type} (model : EKFModel E) (rm : RobotManager2D)
    (pose : Pose2D) (label : Nat) : List (E × Int) → Nat → List (E × Int)
  | [], _ => []
  | (e, c) :: rest, i =>
    if i = label then (e, c) :: cleanLoop model rm pose label rest (i + 1)
    else
      let c2 :=
        if findDistSq (model.getLMEst e) pose ≤ rm.perceptualRange * rm.perceptualRange
        then c - 1 else c
      (e, c2) :: cleanLoop model rm pose label rest i

/-- Sighting cleanup `FastSLAMParticles::cleanUpSightings` (particles.cpp
lines 96–111, compiled under `LM_CLEANUP`).  The robot manager is passed
explicitly: the source dereferences `m_robot` here without a null check and
is only called after `updateLMBelief` verified it is non-null. -/
def cleanUpSightings {E : Type} (model : EKFModel E) (rm : RobotManager2D)
    (p : Particle E) : Particle E :=
  { p with
    m_lmekf_bank := cleanLoop model rm p.m_robot_pose p.m_data_label p.m_lmekf_bank 0 }

/-- Pose setter `FastSLAMParticles::updatePose` (particles.cpp lines
113–116). -/
def updatePose {E : Type} (p : Particle E) (new_pose : Pose2D) :
    PF_RET × Particle E :=
  (PF_RET.SUCCESS, { p with m_robot_pose := new_pose })

/-- Modelled from the spec: `getParticleWeight` is declared in the header,
which is not under src/.  Per §4.4 the importance-weight contribution is the
winning correspondence `w_max` when an existing landmark was matched and the
new-landmark factor `w₀` otherwise. -/
def getParticleWeight {E : Type} (p : Particle E) : ℚ :=
  if p.m_data_label < p.m_lmekf_bank.length then p.m_curr_max_wn
  else p.m_importance_factor

/-- Per-observation driver `FastSLAMParticles::updateParticle(obs)`
(particles.cpp lines 118–137): returns `-1.0` at once when the robot manager
handle is null; otherwise runs `matchLandmark`, then `updateLMBelief`, and
compares the accumulated integer return code against `SUCCESS`, yielding the
sentinel weight on mismatch; otherwise runs the optional sighting cleanup and
yields `getParticleWeight`.  The `cleanup` flag models the `LM_CLEANUP`
compile-time gate. -/
def updateParticle {E : Type} (model : EKFModel E) (cleanup : Bool)
    (new_obs : Observation2D) (p : Particle E) : ℚ × Particle E :=
  match p.m_robot with
  | none => (-1, p)
  | some rm =>
    let p1 := (matchLandmark model new_obs p).2
    let r := updateLMBelief model new_obs p1
    if PF_RET.toInt r.1 ≠ PF_RET.toInt PF_RET.SUCCESS then
      (UPDATE_ERROR_WEIGHT, r.2)
    else
      let p3 := if cleanup then cleanUpSightings model rm r.2 else r.2
      (getParticleWeight p3, p3)

/-- Modelled from the spec: the two-argument overload
`updateParticle(obs, pose)` called by the filter is declared in the header,
which is not under src/; per §4.4 it first updates the pose to the sampled
pose and then runs the one-argument driver. -/
def updateParticle2 {E : Type} (model : EKFModel E) (cleanup : Bool)
    (pose : Pose2D) (new_obs : Observation2D) (p : Particle E) :
    ℚ × Particle E :=
  updateParticle model cleanup new_obs (updatePose p pose).2

/-! ## Particle filter (`particle-filter.cpp`) -/

/-- State of the filter `FastSLAMPF`: the index-keyed particle map (keys
`0 … N−1`, inserted in key order by the constructor and preserved by
resampling) is modelled as a list indexed by key, and the parallel weight
vector as a list of rationals. -/
structure PFState (E : Type) where
  particles : List (Particle E)
  weights : List ℚ

/-- Modelled from the spec: `MathUtil::genCDF` (MathUtil is not under src/)
produces the running prefix sums of the weight vector.  This is the
accumulator recursion. -/
def genCDFAux : List ℚ → ℚ → List ℚ
  | [], _ => []
  | w :: rest, acc => (acc + w) :: genCDFAux rest (acc + w)

/-- Modelled from the spec: `MathUtil::genCDF(weights, cdf)` fills `cdf` with
the prefix sums and returns the final total (0 for an empty input). -/
def genCDF (ws : List ℚ) : List ℚ × ℚ :=
  ((genCDFAux ws 0), (genCDFAux ws 0).getLastD 0)

/-- Binary-search loop of `drawWithReplacement` (particle-filter.cpp lines
64–72), with the remaining iteration count as structural fuel (each
iteration shrinks `e − s`, so `cdf.length` steps always suffice).  `m` is the
current value of the local variable `middle`, which the source leaves
uninitialised before the loop; it is threaded explicitly because the source
returns it even when the loop body never runs. -/
def dwrLoop (cdf : List ℚ) (sample : ℚ) : Nat → Nat → Nat → Int → Int
  | 0, _, _, m => m
  | fuel + 1, s, e, m =>
    if s = e then m
    else
      let mid := (s + e) / 2
      if sample ≥ cdf.getD mid 0 then dwrLoop cdf sample fuel (mid + 1) e (mid : Int)
      else dwrLoop cdf sample fuel s mid (mid : Int)

/-- Sampling search `FastSLAMPF::drawWithReplacement` (particle-filter.cpp
lines 57–74): rejects samples below 0 or above the last CDF entry with `−1`,
then runs the binary-search loop and returns the last value of `middle`.
`m0` is the garbage initial value of the uninitialised local `middle`.  (On
an empty CDF the source reads `cdf_vec[-1]`, which is undefined behaviour;
the model's `getD` default is never exercised by the claims.) -/
def drawWithReplacement (cdf : List ℚ) (sample : ℚ) (m0 : Int) : Int :=
  let e := cdf.length - 1
  if sample < 0 ∨ sample > cdf.getD e 0 then -1
  else dwrLoop cdf sample cdf.length 0 e m0

/-- Resampling `FastSLAMPF::reSampleParticles` (particle-filter.cpp lines
76–96): builds the CDF over the current weights, and for every slot `i`
draws `u ~ U[0, total)` (the draw oracle `draws i`), finds the index with
`drawWithReplacement`, keeps slot `i`'s own index when the result is
negative, and installs a copy-constructed particle from the selected index
into the auxiliary set, which then replaces the particle set.  The weight
vector is untouched.  (`m_particle_set[idx]` for an out-of-range `idx`
would insert a null entry and is undefined behaviour; the model's `getD`
default is never exercised by the claims.) -/
def reSampleParticles {E : Type} (draws : Nat → ℚ) (m0 : Int)
    (st : PFState E) : PFState E :=
  let r := genCDF st.weights
  let parts :=
    (List.range st.particles.length).map (fun i =>
      let j := drawWithReplacement r.1 (draws i) m0
      let idx := if 0 ≤ j then j.toNat else i
      copyParticle (st.particles.getD idx nullParticle))
  { st with particles := parts }

/-- Inner per-particle loop of `FastSLAMPF::updateFilter` (particle-filter.cpp
lines 101–109): walks the particle set with the running counter `idx`,
samples a pose for each particle (the oracle `poseAt idx` stands for
`samplePose(pose_mean)`, whose randomness the filter draws per particle), and
adds that particle's returned weight into `weights[idx]`. -/
def pfInnerLoop {E : Type} (model : EKFModel E) (cleanup : Bool)
    (curr_obs : Observation2D) (poseAt : Nat → Pose2D) :
    List (Particle E) → Nat → List ℚ → List (Particle E) × List ℚ
  | [], _, ws => ([], ws)
  | p :: rest, idx, ws =>
    let r := updateParticle2 model cleanup (poseAt idx) curr_obs p
    let ws2 := ws.set idx (ws.getD idx 0 + r.1)
    let rec2 := pfInnerLoop model cleanup curr_obs poseAt rest (idx + 1) ws2
    (r.2 :: rec2.1, rec2.2)

/-- Outer while-loop of `FastSLAMPF::updateFilter` (particle-filter.cpp lines
100–111): while the queue is non-empty, run the inner loop on the front
observation, then pop.  `t` counts the observation steps so the pose oracle
`poseAt t i` can give the pose sampled at step `t` for particle `i`. -/
def pfQueueLoop {E : Type} (model : EKFModel E) (cleanup : Bool)
    (poseAt : Nat → Nat → Pose2D) :
    List Observation2D → Nat → PFState E → PFState E
  | [], _, st => st
  | z :: rest, t, st =>
    let r := pfInnerLoop model cleanup z (poseAt t) st.particles 0 st.weights
    pfQueueLoop model cleanup poseAt rest (t + 1) ⟨r.1, r.2⟩

/-- Update entry point `FastSLAMPF::updateFilter` (particle-filter.cpp lines
98–113): drain the observation queue with the nested loops, then resample
exactly once. -/
def updateFilterModel {E : Type} (model : EKFModel E) (cleanup : Bool)
    (poseAt : Nat → Nat → Pose2D) (draws : Nat → ℚ) (m0 : Int)
    (zs : List Observation2D) (st : PFState E) : PFState E :=
  reSampleParticles draws m0 (pfQueueLoop model cleanup poseAt zs 0 st)

/-- Reference trajectory of a single particle through a queue of
observations, starting at step `t`: at each step the particle receives the
pose `pose t` and the front observation, and the returned weight increments
are summed.  Used to state that the filter's nested loops treat each
particle independently, with the same observation at each step. -/
def particleTraj {E : Type} (model : EKFModel E) (cleanup : Bool)
    (pose : Nat → Pose2D) : List Observation2D → Nat → Particle E →
    Particle E × ℚ
  | [], _, p => (p, 0)
  | z :: rest, t, p =>
    let r := updateParticle2 model cleanup (pose t) z p
    let rec2 := particleTraj model cleanup pose rest (t + 1) r.2
    (rec2.1, r.1 + rec2.2)

/-- Map over a list with the absolute position of each element, starting the
position count at `n`.  Used to state characterisations of the indexed
loops. -/
def mapFrom {α β : Type} (f : Nat → α → β) : Nat → List α → List β
  | _, [] => []
  | n, a :: as => f n a :: mapFrom f (n + 1) as

/-! ## Pose sampling numerics (`samplePose`, particle-filter.cpp 32–55) -/

/-- Modelled from the spec: square root on rationals standing in for the
float `sqrt` used by `Eigen`'s `cwiseSqrt`.  `none` plays the role of the
IEEE NaN produced for negative inputs; for nonnegative inputs the value is a
rational approximation (exact at 0 and at perfect squares, which is all the
claims evaluate). -/
def sqrtQ (q : ℚ) : Option ℚ :=
  if q < 0 then none
  else some ((Nat.sqrt q.num.toNat : ℚ) / (Nat.sqrt q.den : ℚ))

/-- NaN-propagating addition: any operand that is NaN (`none`) poisons the
result, as in IEEE arithmetic. -/
def oAdd : Option ℚ → Option ℚ → Option ℚ
  | some a, some b => some (a + b)
  | _, _ => none

/-- NaN-propagating scalar multiple: a NaN factor poisons the product even
when the scalar is zero, as in IEEE arithmetic. -/
def oSMul (a : ℚ) : Option ℚ → Option ℚ
  | some b => some (a * b)
  | none => none

/-- Fallback branch of `FastSLAMPF::samplePose` (particle-filter.cpp lines
40–52): when the Cholesky factorisation of the process noise reports
failure, the source forms `L = V · diag(cwiseSqrt(λ))` from the symmetric
eigensolver's eigenvectors `V` and eigenvalues `(e1, e2, e3)` — with no
clamping of negative eigenvalues — and returns `μ + L z` for the standard
normal draw `z = (z1, z2, z3)`.  The eigensolver itself is external
(`Eigen`); its output for the concrete matrices the claims evaluate is
supplied as the arguments.  Components are NaN-propagating rationals. -/
def samplePoseFallback (mu : Pose2D) (V : Mat3) (e1 e2 e3 : ℚ)
    (z1 z2 z3 : ℚ) : Option ℚ × Option ℚ × Option ℚ :=
  let s1 := sqrtQ e1
  let s2 := sqrtQ e2
  let s3 := sqrtQ e3
  let row := fun (a b c base : ℚ) =>
    oAdd (some base)
      (oAdd (oAdd (oSMul (a * z1) s1) (oSMul (b * z2) s2)) (oSMul (c * z3) s3))
  (row V.a11 V.a12 V.a13 mu.x, row V.a21 V.a22 V.a23 mu.y,
   row V.a31 V.a32 V.a33 mu.theta_rad)

/-! ## Pure reference scan for the association loop -/

/-- Pure form of the association scan: the running `(landmark_id, max_wn)`
state of `matchLandmark`'s loop over the list of correspondence densities.
Used to relate the loop to the claim's argmax description. -/
def scanLM : List ℚ → Nat → Nat → ℚ → Nat × ℚ
  | [], _, lid, mw => (lid, mw)
  | w :: rest, idx, lid, mw =>
    if w > mw then scanLM rest (idx + 1) idx w
    else scanLM rest (idx + 1) lid mw

/-- Correspondence probability densities read back by `matchLandmark`'s loop:
for each banked EKF, the density of the observation after it is buffered. -/
def cpdList {E : Type} (model : EKFModel E) (curr_obs : Observation2D)
    (bank : List (E × Int)) : List ℚ :=
  bank.map (fun ec => model.calcCPD (model.updateObservation ec.1 curr_obs))

/-! ## Concrete instances for evaluation -/

/-- Concrete EKF state type used to instantiate the abstract EKF interface
in concrete evaluations. -/
structure CEKF where
  mean : Point2D
  cov : Mat2
  buf : Option Observation2D
  deriving DecidableEq

/-- Concrete EKF behaviour: the Kalman update always succeeds and the
correspondence density is the stored mean's x-coordinate. -/
def cModelOK : EKFModel CEKF :=
  { updateObservation := fun e z => { e with buf := some z }
    update := fun e => (KF_RET.SUCCESS, e)
    calcCPD := fun e => e.mean.x
    getLMEst := fun e => e.mean
    mkEKF := fun m cv _ => ⟨m, cv, none⟩ }

/-- Concrete EKF behaviour whose Kalman update always fails with a matrix
inversion error. -/
def cModelFail : EKFModel CEKF :=
  { cModelOK with update := fun e => (KF_RET.MATRIX_INVERSION_ERROR, e) }

/-- Concrete robot manager used in concrete evaluations. -/
def crm : RobotManager2D :=
  { processNoise := mat3Id
    measNoise := Mat2.identity
    inverseMeas := fun pose z => ⟨pose.x + z.range_m, pose.y + z.bearing_rad⟩
    measJacobian := fun _ => Mat2.identity
    perceptualRange := 10 }

/-- Concrete observation. -/
def cz : Observation2D := ⟨2, 1⟩

/-- Second concrete observation. -/
def cz2 : Observation2D := ⟨4, 3⟩

/-- Concrete EKF state with mean `(3, 1)`. -/
def cekf1 : CEKF := ⟨⟨3, 1⟩, Mat2.identity, none⟩

/-- Concrete EKF state with mean `(3, 2)`. -/
def cekf2 : CEKF := ⟨⟨3, 2⟩, Mat2.identity, none⟩

/-- Particle with one banked EKF, exercising the copy constructor. -/
def cpC1 : Particle CEKF :=
  { m_importance_factor := 1
    m_robot_pose := ⟨0, 0, 0⟩
    m_lmekf_bank := [(cekf1, 5)]
    m_data_label := 0
    m_robot := none
    m_curr_max_wn := 1 }

/-- Particle with two banked EKFs of equal correspondence density (a tie),
exercising data association. -/
def cpC4 : Particle CEKF :=
  { m_importance_factor := 1
    m_robot_pose := ⟨0, 0, 0⟩
    m_lmekf_bank := [(cekf1, 1), (cekf2, 1)]
    m_data_label := 0
    m_robot := some crm
    m_curr_max_wn := 1 }

/-- Particle with an empty bank and data label 0 (= bank size), exercising
the new-landmark path of `updateLMBelief`. -/
def cpC5new : Particle CEKF :=
  { m_importance_factor := 1
    m_robot_pose := ⟨1, 2, 0⟩
    m_lmekf_bank := []
    m_data_label := 0
    m_robot := some crm
    m_curr_max_wn := 1 }

/-- Particle with one banked EKF and data label 0, exercising the
existing-landmark path of `updateLMBelief`. -/
def cpC5ex : Particle CEKF :=
  { m_importance_factor := 1
    m_robot_pose := ⟨1, 2, 0⟩
    m_lmekf_bank := [(cekf1, 3)]
    m_data_label := 0
    m_robot := some crm
    m_curr_max_wn := 1 }

/-- Particle whose banked EKF out-scores the importance factor, so
association picks it; used with the failing EKF behaviour. -/
def cpC6 : Particle CEKF :=
  { m_importance_factor := 1
    m_robot_pose := ⟨0, 0, 0⟩
    m_lmekf_bank := [(cekf1, 1)]
    m_data_label := 0
    m_robot := some crm
    m_curr_max_wn := 1 }

/-- Particle with data label 1 and two in-range banked EKFs (counters 0 and
5) at distance ≤ perceptual range, exercising sighting cleanup. -/
def cpC9 : Particle CEKF :=
  { m_importance_factor := 1
    m_robot_pose := ⟨0, 0, 0⟩
    m_lmekf_bank := [(⟨⟨1, 1⟩, Mat2.identity, none⟩, 0), (⟨⟨2, 2⟩, Mat2.identity, none⟩, 5)]
    m_data_label := 1
    m_robot := some crm
    m_curr_max_wn := 1 }

/-- Filter state with two particles carrying non-empty banks and uniform
weights, exercising resampling. -/
def cstC8 : PFState CEKF :=
  { particles :=
      [{ m_importance_factor := 1
         m_robot_pose := ⟨0, 0, 0⟩
         m_lmekf_bank := [(cekf1, 3)]
         m_data_label := 0
         m_robot := none
         m_curr_max_wn := 1 },
       { m_importance_factor := 1
         m_robot_pose := ⟨0, 0, 0⟩
         m_lmekf_bank := [(cekf2, 1)]
         m_data_label := 0
         m_robot := none
         m_curr_max_wn := 1 }]
    weights := [1, 1] }

/-- Constant uniform-draw oracle landing inside the first CDF interval. -/
def cdraws : Nat → ℚ := fun _ => 1 / 2

/-- Particle with a robot manager and an empty bank, used for the filter
update evaluation. -/
def cpW : Particle CEKF :=
  { m_importance_factor := 1
    m_robot_pose := ⟨0, 0, 0⟩
    m_lmekf_bank := []
    m_data_label := 0
    m_robot := some crm
    m_curr_max_wn := 1 }

/-- Two-particle list for the filter update evaluation. -/
def cPs : List (Particle CEKF) := [cpW, cpW]

/-- Matching weight vector for the filter update evaluation. -/
def cWs : List ℚ := [1 / 2, 1 / 2]

/-- Two-observation queue for the filter update evaluation. -/
def czs : List Observation2D := [cz, cz2]

/-- Deterministic pose-sampling oracle for the filter update evaluation. -/
def cPoseAt : Nat → Nat → Pose2D := fun t i => ⟨(t : ℚ), (i : ℚ), 0⟩

/-! ## Theorems -/

/-! ### List helpers -/

theorem mapFrom_length {α β : Type} (f : Nat → α → β) :
    ∀ (n : Nat) (l : List α), (mapFrom f n l).length = l.length := by
  intro n l
  induction l generalizing n with
  | nil => rfl
  | cons a as ih => simp [mapFrom, ih]

theorem mapFrom_congr {α β : Type} {f g : Nat → α → β}
    (h : ∀ i a, f i a = g i a) :
    ∀ (n : Nat) (l : List α), mapFrom f n l = mapFrom g n l := by
  intro n l
  induction l generalizing n with
  | nil => rfl
  | cons a as ih => simp [mapFrom, h, ih]

theorem mapFrom_eq_map {α β : Type} (g : α → β) :
    ∀ (n : Nat) (l : List α), mapFrom (fun _ a => g a) n l = l.map g := by
  intro n l
  induction l generalizing n with
  | nil => rfl
  | cons a as ih => simp [mapFrom, ih]

theorem mapFrom_mapFrom {α β γ : Type} (f : Nat → β → γ) (g : Nat → α → β) :
    ∀ (n : Nat) (l : List α),
    mapFrom f n (mapFrom g n l) = mapFrom (fun i a => f i (g i a)) n l := by
  intro n l
  induction l generalizing n with
  | nil => rfl
  | cons a as ih => simp [mapFrom, ih]

theorem mapFrom_map {α β γ : Type} (f : Nat → β → γ) (g : α → β) :
    ∀ (n : Nat) (l : List α),
    mapFrom f n (l.map g) = mapFrom (fun i a => f i (g a)) n l := by
  intro n l
  induction l generalizing n with
  | nil => rfl
  | cons a as ih => simp [mapFrom, ih]

theorem zip_mapFrom_same {α β γ : Type} (f : Nat → α → β) (g : Nat → α → γ) :
    ∀ (n : Nat) (l : List α),
    (mapFrom f n l).zip (mapFrom g n l) = mapFrom (fun i a => (f i a, g i a)) n l := by
  intro n l
  induction l generalizing n with
  | nil => rfl
  | cons a as ih => simp [mapFrom, ih]

theorem take_set_succ {α : Type} (v : α) :
    ∀ (l : List α) (i : Nat), i < l.length →
    (l.set i v).take (i + 1) = l.take i ++ [v] := by
  intro l
  induction l with
  | nil => intro i h; simp at h
  | cons a as ih =>
    intro i h
    cases i with
    | zero => simp
    | succ j =>
      simp only [List.set_cons_succ, List.take_succ_cons, List.cons_append]
      rw [ih j (by simpa using h)]

/-! ### Fold-max helpers -/

theorem le_foldl_max : ∀ (ws : List ℚ) (mw : ℚ), mw ≤ ws.foldl max mw := by
  intro ws
  induction ws with
  | nil => intro mw; exact le_refl mw
  | cons w rest ih =>
    intro mw
    rw [List.foldl_cons]
    exact le_trans (le_max_left mw w) (ih (max mw w))

theorem foldl_max_of_all_le : ∀ (ws : List ℚ) (mw : ℚ),
    (∀ w ∈ ws, w ≤ mw) → ws.foldl max mw = mw := by
  intro ws
  induction ws with
  | nil => intro mw _; rfl
  | cons w rest ih =>
    intro mw h
    rw [List.foldl_cons, max_eq_left (h w (List.mem_cons_self w rest))]
    exact ih mw (fun w' hw' => h w' (List.mem_cons_of_mem w hw'))

/-! ### Association-scan helpers -/

theorem scanLM_snd : ∀ (ws : List ℚ) (idx lid : Nat) (mw : ℚ),
    (scanLM ws idx lid mw).2 = ws.foldl max mw := by
  intro ws
  induction ws with
  | nil => intros; rfl
  | cons w rest ih =>
    intro idx lid mw
    rw [scanLM, List.foldl_cons]
    by_cases h : w > mw
    · rw [if_pos h, ih, max_eq_right (le_of_lt h)]
    · rw [if_neg h, ih, max_eq_left (not_lt.mp h)]

theorem scanLM_fst_cases : ∀ (ws : List ℚ) (idx lid : Nat) (mw : ℚ),
    (scanLM ws idx lid mw).1 = lid ∨
      (idx ≤ (scanLM ws idx lid mw).1 ∧ (scanLM ws idx lid mw).1 < idx + ws.length) := by
  intro ws
  induction ws with
  | nil => intro idx lid mw; left; rfl
  | cons w rest ih =>
    intro idx lid mw
    rw [scanLM]
    by_cases h : w > mw
    · rw [if_pos h]
      rcases ih (idx + 1) idx w with h1 | ⟨h1, h2⟩
      · right
        rw [h1]
        simp only [List.length_cons]
        omega
      · right
        simp only [List.length_cons]
        omega
    · rw [if_neg h]
      rcases ih (idx + 1) lid mw with h1 | ⟨h1, h2⟩
      · left; exact h1
      · right
        simp only [List.length_cons]
        omega

theorem scanLM_all_le : ∀ (ws : List ℚ) (idx lid : Nat) (mw : ℚ),
    (∀ w ∈ ws, w ≤ mw) → scanLM ws idx lid mw = (lid, mw) := by
  intro ws
  induction ws with
  | nil => intros; rfl
  | cons w rest ih =>
    intro idx lid mw h
    rw [scanLM, if_neg (not_lt.mpr (h w (List.mem_cons_self w rest)))]
    exact ih (idx + 1) lid mw (fun w' hw' => h w' (List.mem_cons_of_mem w hw'))

theorem scanLM_stable : ∀ (ws : List ℚ) (idx lid : Nat) (mw : ℚ),
    idx + ws.length ≤ lid → (scanLM ws idx lid mw).1 = lid →
    (scanLM ws idx lid mw).2 = mw := by
  intro ws
  induction ws with
  | nil => intros; rfl
  | cons w rest ih =>
    intro idx lid mw hle heq
    rw [scanLM] at heq ⊢
    by_cases h : w > mw
    · rw [if_pos h] at heq
      exfalso
      rcases scanLM_fst_cases rest (idx + 1) idx w with h1 | ⟨h1, h2⟩ <;>
        simp only [List.length_cons] at hle <;> omega
    · rw [if_neg h] at heq ⊢
      refine ih (idx + 1) lid mw ?_ heq
      simp only [List.length_cons] at hle
      omega

theorem scanLM_exists_gt : ∀ (ws : List ℚ) (idx lid : Nat) (mw : ℚ),
    (∃ w ∈ ws, mw < w) →
    ∃ k, k < ws.length ∧ (scanLM ws idx lid mw).1 = idx + k ∧
      ws.getD k 0 = ws.foldl max mw ∧
      (∀ j, j < k → ws.getD j 0 < ws.foldl max mw) ∧
      mw < ws.foldl max mw := by
  intro ws
  induction ws with
  | nil =>
    rintro idx lid mw ⟨w, hmem, -⟩
    exact absurd hmem (List.not_mem_nil w)
  | cons w rest ih =>
    rintro idx lid mw hex
    rw [scanLM]
    by_cases h : w > mw
    · rw [if_pos h]
      by_cases h2 : ∃ w2 ∈ rest, w < w2
      · obtain ⟨k, hk, h1, h3, h4, h5⟩ := ih (idx + 1) idx w h2
        have hmax : max mw w = w := max_eq_right (le_of_lt h)
        refine ⟨k + 1, ?_, ?_, ?_, ?_, ?_⟩
        · simp only [List.length_cons]; omega
        · rw [h1]; omega
        · rw [List.getD_cons_succ, List.foldl_cons, hmax]; exact h3
        · intro j hj
          cases j with
          | zero => rw [List.getD_cons_zero, List.foldl_cons, hmax]; exact h5
          | succ j2 =>
            rw [List.getD_cons_succ, List.foldl_cons, hmax]
            exact h4 j2 (by omega)
        · rw [List.foldl_cons, hmax]
          exact lt_trans h h5
      · push_neg at h2
        have hall : ∀ w2 ∈ rest, w2 ≤ w := h2
        have hscan := scanLM_all_le rest (idx + 1) idx w hall
        have hfold : rest.foldl max w = w := foldl_max_of_all_le rest w hall
        have hmax : max mw w = w := max_eq_right (le_of_lt h)
        refine ⟨0, ?_, ?_, ?_, ?_, ?_⟩
        · simp
        · rw [hscan]; simp
        · rw [List.getD_cons_zero, List.foldl_cons, hmax, hfold]
        · intro j hj; omega
        · rw [List.foldl_cons, hmax, hfold]; exact h
    · rw [if_neg h]
      have hwle : w ≤ mw := not_lt.mp h
      have hex2 : ∃ w2 ∈ rest, mw < w2 := by
        obtain ⟨w2, hmem, hlt⟩ := hex
        rcases List.mem_cons.mp hmem with heq | hmem2
        · exact absurd (heq ▸ hlt) (not_lt.mpr hwle)
        · exact ⟨w2, hmem2, hlt⟩
      obtain ⟨k, hk, h1, h3, h4, h5⟩ := ih (idx + 1) lid mw hex2
      have hmax : max mw w = mw := max_eq_left hwle
      refine ⟨k + 1, ?_, ?_, ?_, ?_, ?_⟩
      · simp only [List.length_cons]; omega
      · rw [h1]; omega
      · rw [List.getD_cons_succ, List.foldl_cons, hmax]; exact h3
      · intro j hj
        cases j with
        | zero =>
          rw [List.getD_cons_zero, List.foldl_cons, hmax]
          exact lt_of_le_of_lt hwle h5
        | succ j2 =>
          rw [List.getD_cons_succ, List.foldl_cons, hmax]
          exact h4 j2 (by omega)
      · rw [List.foldl_cons, hmax]; exact h5

theorem matchLoop_decomp {E : Type} (model : EKFModel E) (z : Observation2D) :
    ∀ (bank : List (E × Int)) (idx lid : Nat) (mw : ℚ),
    matchLoop model z bank idx lid mw =
      (bank.map (fun ec => (model.updateObservation ec.1 z, ec.2)),
       scanLM (cpdList model z bank) idx lid mw) := by
  intro bank
  induction bank with
  | nil => intros; rfl
  | cons ec rest ih =>
    intro idx lid mw
    obtain ⟨e, c⟩ := ec
    simp only [matchLoop, cpdList, List.map_cons, scanLM]
    by_cases h : model.calcCPD (model.updateObservation e z) > mw
    · rw [if_pos h, if_pos h, ih]
      rfl
    · rw [if_neg h, if_neg h, ih]
      rfl

/-! ### matchLandmark helpers -/

theorem matchLandmark_decomp {E : Type} (model : EKFModel E)
    (z : Observation2D) (p : Particle E) :
    matchLandmark model z p =
      ((scanLM (cpdList model z p.m_lmekf_bank) 0 p.m_lmekf_bank.length
          p.m_importance_factor).1,
       { p with
         m_lmekf_bank := p.m_lmekf_bank.map
           (fun ec => (model.updateObservation ec.1 z, ec.2))
         m_data_label := (scanLM (cpdList model z p.m_lmekf_bank) 0
           p.m_lmekf_bank.length p.m_importance_factor).1
         m_curr_max_wn := (scanLM (cpdList model z p.m_lmekf_bank) 0
           p.m_lmekf_bank.length p.m_importance_factor).2 }) := by
  unfold matchLandmark
  rw [matchLoop_decomp]

theorem match_label_le {E : Type} (model : EKFModel E) (z : Observation2D)
    (p : Particle E) :
    (matchLandmark model z p).2.m_data_label ≤ p.m_lmekf_bank.length := by
  rw [matchLandmark_decomp]
  dsimp only
  have hlen : (cpdList model z p.m_lmekf_bank).length = p.m_lmekf_bank.length :=
    List.length_map _ _
  rcases scanLM_fst_cases (cpdList model z p.m_lmekf_bank) 0
    p.m_lmekf_bank.length p.m_importance_factor with h | ⟨h1, h2⟩ <;> omega

theorem match_label_eq_imp_wn {E : Type} (model : EKFModel E)
    (z : Observation2D) (p : Particle E)
    (h : (matchLandmark model z p).2.m_data_label = p.m_lmekf_bank.length) :
    (matchLandmark model z p).2.m_curr_max_wn = p.m_importance_factor := by
  rw [matchLandmark_decomp] at h ⊢
  dsimp only at h ⊢
  refine scanLM_stable _ 0 _ _ ?_ h
  have hlen : (cpdList model z p.m_lmekf_bank).length = p.m_lmekf_bank.length :=
    List.length_map _ _
  omega

theorem match_bank_length {E : Type} (model : EKFModel E) (z : Observation2D)
    (p : Particle E) :
    (matchLandmark model z p).2.m_lmekf_bank.length = p.m_lmekf_bank.length := by
  rw [matchLandmark_decomp]
  dsimp only
  exact List.length_map _ _

/-! ### updateLMBelief helpers -/

theorem updateLMBelief_new {E : Type} (model : EKFModel E)
    (rm : RobotManager2D) (z : Observation2D) (p : Particle E)
    (hrm : p.m_robot = some rm)
    (hlab : p.m_data_label = p.m_lmekf_bank.length) :
    updateLMBelief model z p =
      (PF_RET.SUCCESS,
        { p with m_lmekf_bank := p.m_lmekf_bank ++
            [(model.mkEKF (rm.inverseMeas p.m_robot_pose z)
                (if (rm.measJacobian (rm.inverseMeas p.m_robot_pose z)).det = 0
                 then Mat2.identity
                 else ((rm.measJacobian (rm.inverseMeas p.m_robot_pose z)).inv.mul
                     rm.measNoise).mul
                   (rm.measJacobian (rm.inverseMeas p.m_robot_pose z)).inv.transpose)
                p.m_robot, 1)] }) := by
  unfold updateLMBelief
  rw [hrm]
  dsimp only
  rw [if_pos hlab]

theorem updateLMBelief_existing {E : Type} (model : EKFModel E)
    (rm : RobotManager2D) (z : Observation2D) (p : Particle E) (e : E) (c : Int)
    (hrm : p.m_robot = some rm)
    (hlt : p.m_data_label < p.m_lmekf_bank.length)
    (hget : p.m_lmekf_bank[p.m_data_label]? = some (e, c))
    (hst : (model.update (model.updateObservation e z)).1 = KF_RET.SUCCESS) :
    updateLMBelief model z p =
      (PF_RET.SUCCESS,
        { p with m_lmekf_bank := (p.m_lmekf_bank.set p.m_data_label
            ((model.update (model.updateObservation e z)).2, c + 1)) }) := by
  unfold updateLMBelief
  rw [hrm]
  dsimp only
  rw [if_neg (Nat.ne_of_lt hlt), hget]
  dsimp only
  rw [hst]

/-- C4: `matchLandmark` (particles.cpp 20–43) returns the bank size when no
correspondence density strictly exceeds `w₀`, and otherwise the lowest index
attaining the maximum density (strict comparison, ties to the lowest index);
it records the returned value in the data label, which stays within
`[0, bank.size()]`, and records `max(w₀, max_k w_k)` — hence at least `w₀` —
in the current maximum correspondence. -/
theorem C4_matchLandmark_argmax {E : Type} (model : EKFModel E)
    (z : Observation2D) (p : Particle E) :
    ((matchLandmark model z p).1 = (matchLandmark model z p).2.m_data_label ∧
      (matchLandmark model z p).2.m_data_label ≤ p.m_lmekf_bank.length) ∧
    ((matchLandmark model z p).2.m_curr_max_wn =
        (cpdList model z p.m_lmekf_bank).foldl max p.m_importance_factor ∧
      p.m_importance_factor ≤ (matchLandmark model z p).2.m_curr_max_wn) ∧
    ((∀ w ∈ cpdList model z p.m_lmekf_bank, w ≤ p.m_importance_factor) →
      (matchLandmark model z p).1 = p.m_lmekf_bank.length) ∧
    ((∃ w ∈ cpdList model z p.m_lmekf_bank, p.m_importance_factor < w) →
      (matchLandmark model z p).1 < p.m_lmekf_bank.length ∧
      (cpdList model z p.m_lmekf_bank).getD (matchLandmark model z p).1 0 =
        (matchLandmark model z p).2.m_curr_max_wn ∧
      ∀ j < (matchLandmark model z p).1,
        (cpdList model z p.m_lmekf_bank).getD j 0 <
          (matchLandmark model z p).2.m_curr_max_wn) := by
  have hle := match_label_le model z p
  have hlen : (cpdList model z p.m_lmekf_bank).length = p.m_lmekf_bank.length :=
    List.length_map _ _
  refine ⟨⟨rfl, hle⟩, ⟨?_, ?_⟩, ?_, ?_⟩
  · rw [matchLandmark_decomp]
    exact scanLM_snd _ 0 _ _
  · rw [matchLandmark_decomp]
    dsimp only
    rw [scanLM_snd]
    exact le_foldl_max _ _
  · intro hall
    rw [matchLandmark_decomp]
    dsimp only
    rw [scanLM_all_le _ 0 _ _ hall]
  · intro hex
    obtain ⟨k, hk, h1, h3, h4, h5⟩ :=
      scanLM_exists_gt (cpdList model z p.m_lmekf_bank) 0
        p.m_lmekf_bank.length p.m_importance_factor hex
    rw [matchLandmark_decomp]
    dsimp only
    rw [h1, scanLM_snd]
    refine ⟨by omega, by simpa using h3, ?_⟩
    intro j hj
    simp only [Nat.zero_add] at hj
    exact h4 j hj

/-- C4 witness: association on a particle with two equally scoring EKFs
(densities 3 and 3 against `w₀ = 1`) picks the lowest index and records the
maximum. -/
theorem C4_matchLandmark_argmax_witness :
    (matchLandmark cModelOK cz cpC4).1 < cpC4.m_lmekf_bank.length ∧
    (cpdList cModelOK cz cpC4.m_lmekf_bank).getD (matchLandmark cModelOK cz cpC4).1 0 =
      (matchLandmark cModelOK cz cpC4).2.m_curr_max_wn ∧
    ∀ j < (matchLandmark cModelOK cz cpC4).1,
      (cpdList cModelOK cz cpC4.m_lmekf_bank).getD j 0 <
        (matchLandmark cModelOK cz cpC4).2.m_curr_max_wn :=
  (C4_matchLandmark_argmax cModelOK cz cpC4).2.2.2 (by with_unfolding_all decide)

/-- C5: `updateLMBelief` (particles.cpp 45–94) on the new-landmark path
appends exactly one fresh EKF with mean `inverseMeas(pose, z)`, covariance
the identity when `det(measJacobian(μ)) = 0` and `H⁻¹ R H⁻ᵀ` otherwise, and
existence counter 1; on the existing-landmark path with a successful Kalman
update it increments the paired counter by exactly 1 and neither adds nor
removes a bank entry. -/
theorem C5_updateLMBelief_paths {E : Type} (model : EKFModel E)
    (rm : RobotManager2D) (z : Observation2D) (p : Particle E)
    (hrm : p.m_robot = some rm) :
    (p.m_data_label = p.m_lmekf_bank.length →
      updateLMBelief model z p =
        (PF_RET.SUCCESS,
          { p with m_lmekf_bank := p.m_lmekf_bank ++
              [(model.mkEKF (rm.inverseMeas p.m_robot_pose z)
                  (if (rm.measJacobian (rm.inverseMeas p.m_robot_pose z)).det = 0
                   then Mat2.identity
                   else ((rm.measJacobian (rm.inverseMeas p.m_robot_pose z)).inv.mul
                       rm.measNoise).mul
                     (rm.measJacobian (rm.inverseMeas p.m_robot_pose z)).inv.transpose)
                  p.m_robot, 1)] })) ∧
    (∀ (e : E) (c : Int), p.m_data_label < p.m_lmekf_bank.length →
      p.m_lmekf_bank[p.m_data_label]? = some (e, c) →
      (model.update (model.updateObservation e z)).1 = KF_RET.SUCCESS →
      updateLMBelief model z p =
        (PF_RET.SUCCESS,
          { p with m_lmekf_bank := (p.m_lmekf_bank.set p.m_data_label
              ((model.update (model.updateObservation e z)).2, c + 1)) }) ∧
      (updateLMBelief model z p).2.m_lmekf_bank.length = p.m_lmekf_bank.length) := by
  constructor
  · intro hlab
    exact updateLMBelief_new model rm z p hrm hlab
  · intro e c hlt hget hst
    have heq := updateLMBelief_existing model rm z p e c hrm hlt hget hst
    refine ⟨heq, ?_⟩
    rw [heq]
    exact List.length_set _ _ _

/-- C5 witness: the new-landmark path evaluated on an empty-bank particle,
and the existing-landmark path evaluated on a particle whose labelled EKF
(counter 3) updates successfully. -/
theorem C5_updateLMBelief_paths_witness :
    updateLMBelief cModelOK cz cpC5new =
      (PF_RET.SUCCESS,
        { cpC5new with m_lmekf_bank := cpC5new.m_lmekf_bank ++
            [(cModelOK.mkEKF (crm.inverseMeas cpC5new.m_robot_pose cz)
                (if (crm.measJacobian (crm.inverseMeas cpC5new.m_robot_pose cz)).det = 0
                 then Mat2.identity
                 else ((crm.measJacobian (crm.inverseMeas cpC5new.m_robot_pose cz)).inv.mul
                     crm.measNoise).mul
                   (crm.measJacobian (crm.inverseMeas cpC5new.m_robot_pose cz)).inv.transpose)
                cpC5new.m_robot, 1)] }) ∧
    updateLMBelief cModelOK cz cpC5ex =
      (PF_RET.SUCCESS,
        { cpC5ex with m_lmekf_bank := (cpC5ex.m_lmekf_bank.set cpC5ex.m_data_label
            ((cModelOK.update (cModelOK.updateObservation cekf1 cz)).2, 3 + 1)) }) :=
  ⟨(C5_updateLMBelief_paths cModelOK crm cz cpC5new rfl).1 rfl,
   ((C5_updateLMBelief_paths cModelOK crm cz cpC5ex rfl).2 cekf1 3
     (by decide) (by with_unfolding_all decide) rfl).1⟩

/-! ### updateParticle helpers -/

theorem toInt_injective : ∀ a b : PF_RET,
    PF_RET.toInt a = PF_RET.toInt b → a = b := by
  intro a b
  cases a <;> cases b <;> intro h <;>
    first
    | rfl
    | exact absurd h (by decide)

theorem updateParticle_some {E : Type} (model : EKFModel E) (cleanup : Bool)
    (z : Observation2D) (p : Particle E) (rm : RobotManager2D)
    (hrm : p.m_robot = some rm) :
    updateParticle model cleanup z p =
      (if PF_RET.toInt (updateLMBelief model z (matchLandmark model z p).2).1 ≠
          PF_RET.toInt PF_RET.SUCCESS
       then (UPDATE_ERROR_WEIGHT, (updateLMBelief model z (matchLandmark model z p).2).2)
       else
        (getParticleWeight
          (if cleanup
           then cleanUpSightings model rm (updateLMBelief model z (matchLandmark model z p).2).2
           else (updateLMBelief model z (matchLandmark model z p).2).2),
         if cleanup
         then cleanUpSightings model rm (updateLMBelief model z (matchLandmark model z p).2).2
         else (updateLMBelief model z (matchLandmark model z p).2).2)) := by
  unfold updateParticle
  rw [hrm]

theorem updateLMBelief_existing_fst {E : Type} (model : EKFModel E)
    (rm : RobotManager2D) (z : Observation2D) (p : Particle E) (e : E) (c : Int)
    (hrm : p.m_robot = some rm)
    (hlt : p.m_data_label < p.m_lmekf_bank.length)
    (hget : p.m_lmekf_bank[p.m_data_label]? = some (e, c)) :
    (updateLMBelief model z p).1 =
      (match (model.update (model.updateObservation e z)).1 with
       | KF_RET.SUCCESS => PF_RET.SUCCESS
       | KF_RET.EMPTY_ROBOT_MANAGER => PF_RET.EMPTY_ROBOT_MANAGER
       | KF_RET.MATRIX_INVERSION_ERROR => PF_RET.MATRIX_INVERSION_ERROR) := by
  unfold updateLMBelief
  rw [hrm]
  dsimp only
  rw [if_neg (Nat.ne_of_lt hlt), hget]
  dsimp only
  rcases h : (model.update (model.updateObservation e z)).1 <;> rfl

theorem cleanLoop_length {E : Type} (model : EKFModel E) (rm : RobotManager2D)
    (pose : Pose2D) (label : Nat) :
    ∀ (bank : List (E × Int)) (i : Nat),
    (cleanLoop model rm pose label bank i).length = bank.length := by
  intro bank
  induction bank with
  | nil => intro i; rfl
  | cons ec rest ih =>
    intro i
    obtain ⟨e, c⟩ := ec
    rw [cleanLoop]
    by_cases h : i = label
    · rw [if_pos h]
      simp [ih]
    · rw [if_neg h]
      simp [ih]

theorem getParticleWeight_bank {E : Type} (p : Particle E) (b : List (E × Int)) :
    getParticleWeight { p with m_lmekf_bank := b } =
      if p.m_data_label < b.length then p.m_curr_max_wn
      else p.m_importance_factor := rfl

theorem getParticleWeight_cleanUp {E : Type} (model : EKFModel E)
    (rm : RobotManager2D) (q : Particle E) :
    getParticleWeight (cleanUpSightings model rm q) = getParticleWeight q := by
  unfold getParticleWeight cleanUpSightings
  dsimp only
  rw [cleanLoop_length]

/-- C6: `updateParticle` (particles.cpp 118–137) with a robot manager yields
the sentinel weight exactly when `updateLMBelief` returns a non-success code
(the "exactly" direction additionally assumes the recorded correspondence is
not numerically equal to the sentinel's encoding, since the source encodes
the sentinel as a float cast of the enum); on success it yields the winning
correspondence `w_max` recorded by `matchLandmark` when an existing landmark
was matched, and the new-landmark factor `w₀` when the data label equals the
bank size. -/
theorem C6_updateParticle_sentinel {E : Type} (model : EKFModel E)
    (cleanup : Bool) (z : Observation2D) (p : Particle E)
    (rm : RobotManager2D) (hrm : p.m_robot = some rm) :
    ((updateLMBelief model z (matchLandmark model z p).2).1 ≠ PF_RET.SUCCESS →
      (updateParticle model cleanup z p).1 = UPDATE_ERROR_WEIGHT) ∧
    ((updateLMBelief model z (matchLandmark model z p).2).1 = PF_RET.SUCCESS →
      (updateParticle model cleanup z p).1 =
        (if (matchLandmark model z p).2.m_data_label = p.m_lmekf_bank.length
         then p.m_importance_factor
         else (matchLandmark model z p).2.m_curr_max_wn)) ∧
    ((matchLandmark model z p).2.m_curr_max_wn ≠ UPDATE_ERROR_WEIGHT →
      ((updateParticle model cleanup z p).1 = UPDATE_ERROR_WEIGHT ↔
        (updateLMBelief model z (matchLandmark model z p).2).1 ≠ PF_RET.SUCCESS)) := by
  have hup := updateParticle_some model cleanup z p rm hrm
  have hrm1 : (matchLandmark model z p).2.m_robot = some rm := hrm
  have hn := match_bank_length model z p
  have hle := match_label_le model z p
  have hfail : (updateLMBelief model z (matchLandmark model z p).2).1 ≠ PF_RET.SUCCESS →
      (updateParticle model cleanup z p).1 = UPDATE_ERROR_WEIGHT := by
    intro hs
    rw [hup, if_pos (fun h => hs (toInt_injective _ _ h))]
  have hgwite : getParticleWeight
      (if cleanup
       then cleanUpSightings model rm (updateLMBelief model z (matchLandmark model z p).2).2
       else (updateLMBelief model z (matchLandmark model z p).2).2) =
      getParticleWeight (updateLMBelief model z (matchLandmark model z p).2).2 := by
    cases cleanup
    · rfl
    · exact getParticleWeight_cleanUp model rm _
  have hsucc : (updateLMBelief model z (matchLandmark model z p).2).1 = PF_RET.SUCCESS →
      (updateParticle model cleanup z p).1 =
        (if (matchLandmark model z p).2.m_data_label = p.m_lmekf_bank.length
         then p.m_importance_factor
         else (matchLandmark model z p).2.m_curr_max_wn) := by
    intro hs
    rw [hup, if_neg (by rw [hs]; exact fun h => h rfl)]
    dsimp only
    rw [hgwite]
    by_cases hcase : (matchLandmark model z p).2.m_data_label = p.m_lmekf_bank.length
    · have heq := updateLMBelief_new model rm z (matchLandmark model z p).2 hrm1
        (by rw [hcase, hn])
      rw [if_pos hcase, heq]
      dsimp only
      rw [getParticleWeight_bank,
        if_pos (by rw [List.length_append]; simp only [List.length_singleton]; omega)]
      exact match_label_eq_imp_wn model z p hcase
    · have hlt : (matchLandmark model z p).2.m_data_label <
          (matchLandmark model z p).2.m_lmekf_bank.length := by omega
      obtain ⟨e, c, hget⟩ : ∃ e c,
          (matchLandmark model z p).2.m_lmekf_bank[(matchLandmark model z p).2.m_data_label]? =
            some (e, c) := by
        refine ⟨_, _, List.getElem?_eq_getElem hlt⟩
      have hst : (model.update (model.updateObservation e z)).1 = KF_RET.SUCCESS := by
        have hfst := updateLMBelief_existing_fst model rm z _ e c hrm1 hlt hget
        rw [hs] at hfst
        rcases h2 : (model.update (model.updateObservation e z)).1 with _ | _ | _
        · rfl
        · rw [h2] at hfst; exact absurd hfst (by decide)
        · rw [h2] at hfst; exact absurd hfst (by decide)
      have heq := updateLMBelief_existing model rm z _ e c hrm1 hlt hget hst
      rw [if_neg hcase, heq]
      dsimp only
      rw [getParticleWeight_bank, if_pos (by rw [List.length_set]; exact hlt)]
  refine ⟨hfail, hsucc, ?_⟩
  intro hcw
  by_cases hs : (updateLMBelief model z (matchLandmark model z p).2).1 = PF_RET.SUCCESS
  · have h1 := hsucc hs
    have h2 : (updateParticle model cleanup z p).1 =
        (matchLandmark model z p).2.m_curr_max_wn := by
      by_cases hcase : (matchLandmark model z p).2.m_data_label = p.m_lmekf_bank.length
      · rw [h1, if_pos hcase]
        exact (match_label_eq_imp_wn model z p hcase).symm
      · rw [h1, if_neg hcase]
    constructor
    · intro habs
      rw [h2] at habs
      exact absurd habs hcw
    · intro hns
      exact absurd hs hns
  · exact iff_of_true (hfail hs) hs

/-- C6 witness: with an EKF whose Kalman update fails by matrix inversion
error, the particle update yields the sentinel weight. -/
theorem C6_updateParticle_sentinel_witness :
    (updateParticle cModelFail false cz cpC6).1 = UPDATE_ERROR_WEIGHT :=
  (C6_updateParticle_sentinel cModelFail false cz cpC6 crm rfl).1
    (by with_unfolding_all decide)

/-! ### Filter-loop helpers -/

theorem zip_map_snd {α β : Type} :
    ∀ (ws : List α) (ps : List β), ws.length = ps.length →
    (ws.zip ps).map (fun wp => wp.2) = ps := by
  intro ws
  induction ws with
  | nil =>
    intro ps hlen
    cases ps with
    | nil => rfl
    | cons q qs => simp at hlen
  | cons w ws2 ih =>
    intro ps hlen
    cases ps with
    | nil => simp at hlen
    | cons q qs =>
      simp only [List.zip_cons_cons, List.map_cons]
      rw [ih qs (by simpa using hlen)]

theorem getD_eq_getElem_of_lt {α : Type} (ws : List α) (d : α) (i : Nat)
    (h : i < ws.length) : ws.getD i d = ws[i] := by
  rw [List.getD_eq_getElem?_getD, List.getElem?_eq_getElem h, Option.getD_some]

theorem pfInnerLoop_char {E : Type} (model : EKFModel E) (cleanup : Bool)
    (z : Observation2D) (poseAt1 : Nat → Pose2D) :
    ∀ (parts : List (Particle E)) (idx : Nat) (ws : List ℚ),
    ws.length = idx + parts.length →
    pfInnerLoop model cleanup z poseAt1 parts idx ws =
      (mapFrom (fun k wp => (updateParticle2 model cleanup (poseAt1 k) z wp.2).2)
         idx ((ws.drop idx).zip parts),
       ws.take idx ++
         mapFrom (fun k wp => wp.1 + (updateParticle2 model cleanup (poseAt1 k) z wp.2).1)
           idx ((ws.drop idx).zip parts)) := by
  intro parts
  induction parts with
  | nil =>
    intro idx ws hlen
    rw [pfInnerLoop]
    simp only [List.zip_nil_right, mapFrom, List.append_nil]
    simp only [List.length_nil] at hlen
    rw [List.take_of_length_le (by omega)]
  | cons q rest ih =>
    intro idx ws hlen
    have hidx : idx < ws.length := by
      simp only [List.length_cons] at hlen
      omega
    rw [pfInnerLoop]
    rw [ih (idx + 1) _ (by rw [List.length_set]; simp only [List.length_cons] at hlen; omega)]
    have hdropset : ((ws.set idx (ws.getD idx 0 +
        (updateParticle2 model cleanup (poseAt1 idx) z q).1)).drop (idx + 1)) =
        ws.drop (idx + 1) := by
      rw [List.drop_set, if_pos (Nat.lt_succ_self idx)]
    have htakeset : ((ws.set idx (ws.getD idx 0 +
        (updateParticle2 model cleanup (poseAt1 idx) z q).1)).take (idx + 1)) =
        ws.take idx ++ [ws.getD idx 0 + (updateParticle2 model cleanup (poseAt1 idx) z q).1] :=
      take_set_succ _ ws idx hidx
    have hdrop : ws.drop idx = ws[idx] :: ws.drop (idx + 1) :=
      List.drop_eq_getElem_cons hidx
    have hgd : ws.getD idx 0 = ws[idx] := getD_eq_getElem_of_lt ws 0 idx hidx
    rw [hdropset, htakeset, hgd, hdrop, List.zip_cons_cons]
    simp only [mapFrom]
    rw [List.append_assoc]
    simp only [List.singleton_append]

theorem pfQueueLoop_char {E : Type} (model : EKFModel E) (cleanup : Bool)
    (poseAt : Nat → Nat → Pose2D) :
    ∀ (zs : List Observation2D) (t : Nat) (ps : List (Particle E)) (ws : List ℚ),
    ws.length = ps.length →
    pfQueueLoop model cleanup poseAt zs t ⟨ps, ws⟩ =
      ⟨mapFrom (fun i wp =>
          (particleTraj model cleanup (fun s => poseAt s i) zs t wp.2).1) 0 (ws.zip ps),
        mapFrom (fun i wp =>
          wp.1 + (particleTraj model cleanup (fun s => poseAt s i) zs t wp.2).2) 0 (ws.zip ps)⟩ := by
  intro zs
  induction zs with
  | nil =>
    intro t ps ws hlen
    rw [pfQueueLoop]
    have h1 : mapFrom (fun i wp =>
        (particleTraj model cleanup (fun s => poseAt s i) [] t wp.2).1) 0 (ws.zip ps) = ps :=
      ((mapFrom_congr (g := fun _ wp => wp.2) (fun i a => rfl) 0 (ws.zip ps)).trans
        (mapFrom_eq_map _ 0 _)).trans (zip_map_snd ws ps hlen)
    have h2 : mapFrom (fun i wp =>
        wp.1 + (particleTraj model cleanup (fun s => poseAt s i) [] t wp.2).2) 0 (ws.zip ps) = ws :=
      ((mapFrom_congr (g := fun _ wp => wp.1) (fun i a => add_zero a.1) 0 (ws.zip ps)).trans
        (mapFrom_eq_map _ 0 _)).trans (List.map_fst_zip ws ps (le_of_eq hlen))
    rw [h1, h2]
  | cons z rest ih =>
    intro t ps ws hlen
    rw [pfQueueLoop]
    dsimp only
    rw [pfInnerLoop_char model cleanup z (poseAt t) ps 0 ws (by omega)]
    simp only [List.drop_zero, List.take_zero, List.nil_append]
    rw [ih (t + 1) _ _
      (by rw [mapFrom_length, mapFrom_length])]
    rw [zip_mapFrom_same, mapFrom_mapFrom, mapFrom_mapFrom]
    dsimp only
    have hfst : ∀ (i : Nat) (wp : ℚ × Particle E),
        (particleTraj model cleanup (fun s => poseAt s i) rest (t + 1)
            (updateParticle2 model cleanup (poseAt t i) z wp.2).2).1 =
          (particleTraj model cleanup (fun s => poseAt s i) (z :: rest) t wp.2).1 := by
      intro i wp
      rw [particleTraj]
    have hsnd : ∀ (i : Nat) (wp : ℚ × Particle E),
        (wp.1 + (updateParticle2 model cleanup (poseAt t i) z wp.2).1) +
            (particleTraj model cleanup (fun s => poseAt s i) rest (t + 1)
              (updateParticle2 model cleanup (poseAt t i) z wp.2).2).2 =
          wp.1 + (particleTraj model cleanup (fun s => poseAt s i) (z :: rest) t wp.2).2 := by
      intro i wp
      rw [particleTraj]
      dsimp only
      rw [add_assoc]
    rw [mapFrom_congr hfst, mapFrom_congr hsnd]

/-- C3: `updateFilter` (particle-filter.cpp 98–113) is the per-particle
independent fold: after the queue drains, slot `i` of the weight vector
holds its old value plus the sum, over the queue in order, of the weight
increments returned by particle `i` — each observation being handed
identically to every particle before the queue advances — and the particle
at slot `i` is particle `i`'s own trajectory through those observations;
resampling then runs exactly once on the drained state. -/
theorem C3_updateFilter_perParticle {E : Type} (model : EKFModel E)
    (cleanup : Bool) (poseAt : Nat → Nat → Pose2D) (draws : Nat → ℚ)
    (m0 : Int) (zs : List Observation2D) (ps : List (Particle E))
    (ws : List ℚ) (hlen : ws.length = ps.length) :
    pfQueueLoop model cleanup poseAt zs 0 ⟨ps, ws⟩ =
      ⟨mapFrom (fun i wp =>
          (particleTraj model cleanup (fun s => poseAt s i) zs 0 wp.2).1) 0 (ws.zip ps),
        mapFrom (fun i wp =>
          wp.1 + (particleTraj model cleanup (fun s => poseAt s i) zs 0 wp.2).2) 0 (ws.zip ps)⟩ ∧
    updateFilterModel model cleanup poseAt draws m0 zs ⟨ps, ws⟩ =
      reSampleParticles draws m0 (pfQueueLoop model cleanup poseAt zs 0 ⟨ps, ws⟩) :=
  ⟨pfQueueLoop_char model cleanup poseAt zs 0 ps ws hlen, rfl⟩

/-- C3 witness: the per-particle characterisation of the drained filter
state and the single trailing resampling, evaluated on a two-particle,
two-observation instance. -/
theorem C3_updateFilter_perParticle_witness :
    pfQueueLoop cModelOK false cPoseAt czs 0 ⟨cPs, cWs⟩ =
      ⟨mapFrom (fun i wp =>
          (particleTraj cModelOK false (fun s => cPoseAt s i) czs 0 wp.2).1) 0 (cWs.zip cPs),
        mapFrom (fun i wp =>
          wp.1 + (particleTraj cModelOK false (fun s => cPoseAt s i) czs 0 wp.2).2) 0 (cWs.zip cPs)⟩ ∧
    updateFilterModel cModelOK false cPoseAt cdraws 0 czs ⟨cPs, cWs⟩ =
      reSampleParticles cdraws 0 (pfQueueLoop cModelOK false cPoseAt czs 0 ⟨cPs, cWs⟩) :=
  C3_updateFilter_perParticle cModelOK false cPoseAt cdraws 0 czs cPs cWs (by decide)

/-- C1: the copy constructor (particles.cpp 9–18) does not duplicate the
source's EKF bank: its loop ranges over the destination's own, still-empty
bank, so the copy of a particle with a one-entry bank has an empty bank,
while the scalar members are copied. -/
theorem C1_copy_empties_bank :
    (copyParticle cpC1).m_lmekf_bank = [] ∧
    cpC1.m_lmekf_bank.length = 1 ∧
    (copyParticle cpC1).m_importance_factor = cpC1.m_importance_factor ∧
    (copyParticle cpC1).m_robot_pose = cpC1.m_robot_pose := by
  with_unfolding_all decide

/-- C2: `drawWithReplacement` (particle-filter.cpp 57–74) returns the last
probed `middle`, not the bracketing index: on the CDF `[1, 2]` with sample
`3/2` (which satisfies `cdf[0] ≤ u < cdf[1]`, so the claimed answer is 1) it
returns 0 regardless of the initial garbage in `middle`; and on a
single-element CDF the loop never runs, so the uninitialised `middle`
(garbage `m0`) is returned rather than 0. -/
theorem C2_drawWithReplacement_bug :
    drawWithReplacement [1, 2] (3 / 2) 0 = 0 ∧
    drawWithReplacement [1, 2] (3 / 2) 99 = 0 ∧
    ((1 : ℚ) ≤ 3 / 2 ∧ (3 / 2 : ℚ) < 2) ∧
    drawWithReplacement [5] (1 / 2) 37 = 37 ∧
    drawWithReplacement [5] (1 / 2) 0 = 0 := by
  with_unfolding_all decide

/-- C7: the eigensolver fallback of `samplePose` (particle-filter.cpp 40–52)
takes `cwiseSqrt` of the eigenvalues without clamping: for process noise
`diag(−1, 0, 0)` (eigenvalues `(−1, 0, 0)`, eigenvector matrix the identity)
every component of the returned pose is NaN; with zero process noise
(eigenvalues all 0) the mean pose is returned exactly, for any normal
draw. -/
theorem C7_fallback_no_clamping :
    samplePoseFallback ⟨1, 2, 3⟩ mat3Id (-1) 0 0 5 7 11 = (none, none, none) ∧
    samplePoseFallback ⟨1, 2, 3⟩ mat3Id 0 0 0 5 7 11 = (some 1, some 2, some 3) := by
  with_unfolding_all decide

/-- C8: resampling (particle-filter.cpp 76–96) leaves the weight vector
unchanged and keeps one particle per slot, but the particles it installs are
produced by the broken copy constructor: with uniform weights `[1, 1]` and
draws `1/2` every slot selects particle 0, whose bank has one EKF, yet both
installed particles have empty banks. -/
theorem C8_resample_copy_bug :
    (reSampleParticles cdraws 0 cstC8).weights = cstC8.weights ∧
    (reSampleParticles cdraws 0 cstC8).particles.length = 2 ∧
    (reSampleParticles cdraws 0 cstC8).particles.map (fun p => p.m_lmekf_bank) = [[], []] ∧
    cstC8.particles.map (fun p => p.m_lmekf_bank.length) = [1, 1] := by
  with_unfolding_all decide

/-- C9: sighting cleanup (particles.cpp 96–111) with data label 1 and two
in-range EKFs decrements *both* counters — including the just-updated EKF 1,
because the skip index `i` is only advanced inside the skip branch — drives
EKF 0's counter from 0 to −1 instead of flooring at 0, and prunes nothing. -/
theorem C9_cleanup_bug :
    (cleanUpSightings cModelOK crm cpC9).m_lmekf_bank.map Prod.snd = [-1, 4] ∧
    (cleanUpSightings cModelOK crm cpC9).m_lmekf_bank.length = 2 ∧
    cpC9.m_data_label = 1 := by
  with_unfolding_all decide

/-- C10: with a null robot-manager handle, `updateParticle` (particles.cpp
118–122) returns `−1.0` at once and the particle — bank, counters, data
label and current maximum correspondence — is unchanged. -/
theorem C10_nullRobot_returns_neg_one {E : Type} (model : EKFModel E)
    (cleanup : Bool) (z : Observation2D) (p : Particle E)
    (h : p.m_robot = none) :
    updateParticle model cleanup z p = (-1, p) := by
  simp only [updateParticle, h]

/-- C10 witness: the null-robot early return evaluated on a concrete
particle. -/
theorem C10_nullRobot_witness :
    updateParticle cModelOK false cz (nullParticle : Particle CEKF)
      = (-1, nullParticle) :=
  C10_nullRobot_returns_neg_one cModelOK false cz nullParticle rfl

end FastSLAM
